import Mathlib

/-
Verification of the declarative element-query engine of revitpythonwrapper
(src/rpw/db/collector.py): the Collector facade, its _Filter chain, the
symbol/level sub-filters and the ParameterFilter rule builder.

Embedding conventions:
  - Python dicts (kwargs, _filters, conditions) are association lists of
    (String, value) pairs; dict iteration is modeled as insertion order.
  - The external Revit collaborators (FilteredElementCollector enumeration,
    rule evaluation, BicEnum.get, getattr(DB, name), to_element_ids) are
    fields of an Env record.  A FilteredElementCollector is modeled as a base
    Scope plus the list of narrowing operations applied to it so far; its
    narrowing methods mutate it in place and return it, which the embedding
    renders by threading the operation list.  Enumeration filters the scope
    contents by the conjunction of the operation predicates.
  - Machine floats that only ride along as opaque rule arguments are modeled
    as rationals.
  - Raised exceptions become Except results.  RPW_Exception and RPW_TypeError
    are the library error types; keyError models the Python KeyError raised
    by a failed dictionary subscript.
-/

/-- Values a condition of ParameterFilter can carry (Python str, int, float,
bool). -/
inductive CondValue where
  | str (s : String)
  | int (n : Int)
  | float (q : Rat)
  | bool (b : Bool)
deriving DecidableEq, Repr

/-- One positional argument handed to a DB.ParameterFilterRuleFactory
factory method: the condition value itself, the appended case-sensitivity
flag for strings, or the appended numeric tolerance for floats. -/
inductive RuleArg where
  | val (v : CondValue)
  | caseFlag (b : Bool)
  | tolerance (q : Rat)
deriving DecidableEq, Repr

/-- A DB.FilterRule: an atomic rule produced by a named factory method of
DB.ParameterFilterRuleFactory, possibly wrapped in DB.FilterInverseRule. -/
inductive FilterRule where
  | atomic (factory : String) (parameterId : Nat) (args : List RuleArg)
  | inverse (rule : FilterRule)
deriving DecidableEq, Repr

/-- The ParameterFilter wrapper (collector.py lines 338-457): its
_revit_object is DB.ElementParameterFilter(rules, reverse); self.conditions
keeps the condition dict. -/
structure ParameterFilter where
  rules : List FilterRule
  reverse : Bool
  conditions : List (String × CondValue)
deriving DecidableEq, Repr

/-- Values a Collector filter can carry.  Handles of external DB objects are
opaque Nats; famSym, levelRef and viewRef model DB objects whose Id
attribute is the given handle. -/
inductive Value where
  | bool (b : Bool)
  | str (s : String)
  | cls (handle : Nat)
  | cat (handle : Nat)
  | pfilter (pf : ParameterFilter)
  | elemId (id : Nat)
  | famSym (id : Nat)
  | levelRef (id : Nat)
  | viewRef (id : Nat)
  | doc (id : Nat)
  | elemList (ids : List Nat)
deriving DecidableEq, Repr

/-- The base scope a FilteredElementCollector is constructed over
(collector.py lines 93-108): whole document, a view, or an explicit id
list (the elements case goes through to_element_ids first, the element_ids
case passes its value through as given). -/
inductive Scope where
  | docScope (d : Value)
  | view (d : Value) (viewId : Nat)
  | elems (d : Value) (ids : List Nat)
  | elemIds (d : Value) (idsVal : Value)
deriving DecidableEq, Repr

/-- An argument of a narrowing method call: a constructed
DB.ElementParameterFilter, DB.FamilyInstanceFilter or DB.ElementLevelFilter,
or the raw filter value (of_class and of_category pass it through). -/
inductive SubFilterArg where
  | epf (rules : List FilterRule) (reverse : Bool)
  | famInst (d : Value) (symbolId : Nat)
  | levelFilter (levelId : Nat) (reverse : Bool)
  | rawVal (v : Value)
deriving DecidableEq, Repr

/-- One narrowing operation applied to the collector: a nullary method call
such as WhereElementIsElementType, or a unary call such as
WherePasses(subfilter) or OfClass(value). -/
inductive AOp where
  | noArg (method : String)
  | call (method : String) (arg : SubFilterArg)
deriving DecidableEq, Repr

/-- Exceptions: RPW_Exception and RPW_TypeError from rpw.exceptions, plus
the Python KeyError from a failed dict subscript and AttributeError from a
missing attribute. -/
inductive PyError where
  | rpwException (msg : String)
  | rpwTypeError (expected : String) (got : String)
  | keyError (key : String)
  | attributeError (attr : String)
deriving DecidableEq, Repr

/-- Association-list lookup, the embedding of a Python dict read. -/
def lookupA {α : Type} : List (String × α) → String → Option α
  | [], _ => none
  | p :: rest, k => if p.1 = k then some p.2 else lookupA rest k

/-- Dict assignment d[k] = v: overwrite the slot in place when the key
exists, append a new slot otherwise. -/
def setAssoc {α : Type} : List (String × α) → String → α → List (String × α)
  | [], k, v => [(k, v)]
  | p :: rest, k, v =>
    if p.1 = k then (k, v) :: rest else p :: setAssoc rest k v

/-- The merge loop of _Filter.__call__ (lines 192-193): each new pair is
assigned into the stored dict in order. -/
def mergeAssoc {α : Type} (l : List (String × α)) :
    List (String × α) → List (String × α)
  | [] => l
  | p :: rest => mergeAssoc (setAssoc l p.1 p.2) rest

/-- Key list of an association list. -/
def keysOf {α : Type} (l : List (String × α)) : List String := l.map Prod.fst

/-- dict.pop(k) combined with the prior membership test: the value when
present, and the dict without that key. -/
def popKey (kw : List (String × Value)) (k : String) :
    Option Value × List (String × Value) :=
  (lookupA kw k, kw.filter (fun p => !(p.1 == k)))

/-- _Filter.MAP (collector.py lines 170-180). -/
def MAP : List (String × String) :=
  [("of_class", "OfClass"),
   ("of_category", "OfCategory"),
   ("is_not_type", "WhereElementIsNotElementType"),
   ("is_type", "WhereElementIsElementType"),
   ("is_view_independent", "WhereElementIsViewIndependent"),
   ("symbol", "WherePasses"),
   ("level", "WherePasses"),
   ("not_level", "WherePasses"),
   ("parameter_filter", "WherePasses")]

/-- ParameterFilter.RULES (collector.py lines 355-372). -/
def RULES : List (String × String) :=
  [("equals", "CreateEqualsRule"),
   ("not_equals", "CreateEqualsRule"),
   ("contains", "CreateContainsRule"),
   ("not_contains", "CreateContainsRule"),
   ("begins", "CreateBeginsWithRule"),
   ("not_begins", "CreateBeginsWithRule"),
   ("ends", "CreateEndsWithRule"),
   ("not_ends", "CreateEndsWithRule"),
   ("greater", "CreateGreaterRule"),
   ("not_greater", "CreateGreaterRule"),
   ("greater_equal", "CreateGreaterOrEqualRule"),
   ("not_greater_equal", "CreateGreaterOrEqualRule"),
   ("less", "CreateLessRule"),
   ("not_less", "CreateLessRule"),
   ("less_equal", "CreateLessOrEqualRule"),
   ("not_less_equal", "CreateLessOrEqualRule")]

def CASE_SENSITIVE : Bool := true

def FLOAT_PRECISION : Rat := 0.0013020833333333

/-- Whether the second char list begins with the first. -/
def leadsWith : List Char → List Char → Bool
  | [], _ => true
  | _ :: _, [] => false
  | p :: ps, c :: cs => (p == c) && leadsWith ps cs

/-- Whether the first char list occurs somewhere inside the second. -/
def containsSub (pat : List Char) : List Char → Bool
  | [] => leadsWith pat []
  | c :: cs => leadsWith pat (c :: cs) || containsSub pat cs

/-- Python substring test, used for the check ("not_" in condition_name) on
line 439. -/
def hasNotSubstr (s : String) : Bool := containsSub "not_".toList s.toList

/-- Python str.startswith, used for the reverse flag of the level filter on
line 242. -/
def pyStartsWith (s pre : String) : Bool := leadsWith pre.toList s.toList

/-- Python truthiness of a condition value, used where an option value read
by dict.get flows into a boolean position. -/
def condTruthy : CondValue → Bool
  | .str s => s != ""
  | .int n => n != 0
  | .float q => q != 0
  | .bool b => b

/-- ParameterFilter.__init__ (collector.py lines 377-457): read the three
options with defaults, reject any key outside RULES, build one atomic rule
per condition with type-directed extra arguments, wrap not_ conditions in
FilterInverseRule, reject an empty rule list, and assemble the
ElementParameterFilter. -/
def parameterFilterInit (parameterId : Nat)
    (conditions : List (String × CondValue)) :
    Except PyError ParameterFilter :=
  let reverse := match lookupA conditions "reverse" with
    | some v => condTruthy v
    | none => false
  let caseSensitive := match lookupA conditions "case_sensitive" with
    | some v => condTruthy v
    | none => CASE_SENSITIVE
  let precision := match lookupA conditions "precision" with
    | some (.float q) => q
    | some _ => FLOAT_PRECISION
    | none => FLOAT_PRECISION
  match conditions.find? (fun p => (lookupA RULES p.1).isNone) with
  | some p => .error (.rpwException ("Rule not valid: " ++ p.1))
  | none =>
    let rules := conditions.map (fun p =>
      let factoryName := (lookupA RULES p.1).getD ""
      let args := [RuleArg.val p.2]
        ++ (match p.2 with | .str _ => [RuleArg.caseFlag caseSensitive] | _ => [])
        ++ (match p.2 with | .float _ => [RuleArg.tolerance precision] | _ => [])
      let rule := FilterRule.atomic factoryName parameterId args
      if hasNotSubstr p.1 then FilterRule.inverse rule else rule)
    match rules with
    | [] => .error (.rpwException
        ("malformed filter rule: " ++ String.intercalate ", " (keysOf conditions)))
    | _ :: _ => .ok ⟨rules, reverse, conditions⟩

/-- The external collaborators: the element store, its operation semantics,
atomic rule evaluation, identity coercion and name resolution.  Narrowing an
adapter restricts enumeration to the elements satisfying the operation
predicate, which is the documented contract of the store. -/
structure Env where
  defaultDoc : Value
  store : Scope → List Nat
  opSem : AOp → Nat → Bool
  ruleSem : String → Nat → List RuleArg → Nat → Bool
  toElementIds : Value → List Nat
  bicEnum : String → Nat
  dbClass : String → Nat

/-- Evaluation of a DB.FilterRule against an element: FilterInverseRule
negates the wrapped rule. -/
def evalRule (env : Env) : FilterRule → Nat → Bool
  | .atomic f pid args, e => env.ruleSem f pid args e
  | .inverse r, e => !(evalRule env r e)

/-- Evaluation of DB.ElementParameterFilter(rules, reverse) against an
element: the element passes when it satisfies every rule, inverted when
reverse is set. -/
def pfPasses (env : Env) (pf : ParameterFilter) (e : Nat) : Bool :=
  let base := pf.rules.all (fun r => evalRule env r e)
  if pf.reverse then !base else base

/-- Enumerating a narrowed adapter: the scope contents restricted by the
conjunction of the applied operation predicates. -/
def materialize (env : Env) (scope : Scope) (ops : List AOp) : List Nat :=
  (env.store scope).filter (fun e => ops.all (fun op => env.opSem op e))

/-- Crude printable form of a value, standing in for Python str formatting
inside exception messages. -/
def valueRepr : Value → String
  | .bool b => if b then "True" else "False"
  | .str s => s
  | .cls n => "class-" ++ toString n
  | .cat n => "category-" ++ toString n
  | .pfilter _ => "ParameterFilter"
  | .elemId n => "ElementId-" ++ toString n
  | .famSym n => "FamilySymbol-" ++ toString n
  | .levelRef n => "Level-" ++ toString n
  | .viewRef n => "View-" ++ toString n
  | .doc n => "Document-" ++ toString n
  | .elemList _ => "list"

/-- Python type name of a value, the second argument of RPW_TypeError. -/
def typeName : Value → String
  | .bool _ => "bool"
  | .str _ => "str"
  | .cls _ => "type"
  | .cat _ => "BuiltInCategory"
  | .pfilter _ => "ParameterFilter"
  | .elemId _ => "ElementId"
  | .famSym _ => "FamilySymbol"
  | .levelRef _ => "Level"
  | .viewRef _ => "View"
  | .doc _ => "Document"
  | .elemList _ => "list"

/-- One iteration body of the loop of _Filter._chain (lines 217-249): the
method lookup MAP[filter_name] runs first and raises KeyError on an unknown
key, so the explicit membership check on line 220 is unreachable; then the
value dispatch: booleans (with the is_type and is_not_type duality on False,
and a silent skip when no branch assigns), ParameterFilter values,
the symbol and level sub-filter constructions (which raise RPW_TypeError on
a wrong shape, lines 299-304 and 328-333), of_class and of_category pass
the value through, and anything else raises RPW_Exception (line 248). -/
def applyOne (cdoc : Value) (name : String) (v : Value) :
    Except PyError (List AOp) :=
  match lookupA MAP name with
  | none => .error (.keyError name)
  | some method =>
    match v with
    | .bool b =>
      if b then .ok [.noArg method]
      else if name = "is_type" then
        .ok [.noArg ((lookupA MAP "is_not_type").getD "")]
      else if name = "is_not_type" then
        .ok [.noArg ((lookupA MAP "is_type").getD "")]
      else .ok []
    | .pfilter pf => .ok [.call method (.epf pf.rules pf.reverse)]
    | _ =>
      if name = "symbol" then
        match v with
        | .elemId i => .ok [.call method (.famInst cdoc i)]
        | .famSym i => .ok [.call method (.famInst cdoc i)]
        | _ => .error (.rpwTypeError "FamilySymbol or FamilySymbol Id" (typeName v))
      else if name = "level" ∨ name = "not_level" then
        match v with
        | .elemId i => .ok [.call method (.levelFilter i (pyStartsWith name "not"))]
        | .levelRef i => .ok [.call method (.levelFilter i (pyStartsWith name "not"))]
        | _ => .error (.rpwTypeError "Level or Level Id" (typeName v))
      else if name = "of_class" ∨ name = "of_category" then
        .ok [.call method (.rawVal v)]
      else
        .error (.rpwException
          ("unknown parameter filter error: " ++ name ++ ":" ++ valueRepr v))

/-- _Filter._chain (lines 201-253).  The outer loop iterates the full dict
while the shared stack drops one processed key per iteration and each
iteration recurses on the remaining stack, so after the head is applied the
tail is chained by the recursion and then chained again by the continuing
loop.  The returned list is every operation applied to the adapter, in
order, with the error that aborted the traversal, if any; operations applied
before the error stay applied, since the adapter mutates in place. -/
def chainList (cdoc : Value) : List (String × Value) → List AOp × Option PyError
  | [] => ([], none)
  | (k, v) :: rest =>
    match applyOne cdoc k v with
    | .error e => ([], some e)
    | .ok ops1 =>
      match chainList cdoc rest with
      | (ops2, some e) => (ops1 ++ ops2, some e)
      | (ops2, none) =>
        match chainList cdoc rest with
        | (ops3, e3) => (ops1 ++ ops2 ++ ops3, e3)

/-- One coercion step of _Filter._coerce_filter_values: when the key holds a
truthy string, resolve it through the given external resolver and assign the
resolved handle back into the dict. -/
def coerceOne (l : List (String × Value)) (k : String) (f : String → Value) :
    List (String × Value) :=
  match lookupA l k with
  | some (.str s) => if s = "" then l else setAssoc l k (f s)
  | _ => l

/-- _Filter._coerce_filter_values (lines 255-278): a truthy string value of
of_category resolves through BicEnum.get, a truthy string value of of_class
resolves through getattr(DB, name); the second read sees the dict updated by
the first. -/
def coerceFilterValues (env : Env) (kw : List (String × Value)) :
    List (String × Value) :=
  coerceOne (coerceOne kw "of_category" (fun s => .cat (env.bicEnum s)))
    "of_class" (fun s => .cls (env.dbClass s))

/-- The state of a Collector: the resolved document, the base scope, the
cumulative filter dict, the operations applied so far to its
FilteredElementCollector, and the cached materialized element list. -/
structure CollectorState where
  cdoc : Value
  scope : Scope
  filters : List (String × Value)
  ops : List AOp
  elements : List Nat
deriving DecidableEq, Repr

/-- _Filter.__call__ (lines 185-198): coerce the new values, merge them into
the stored dict, chain the merged dict against the collector and rebuild the
cached elements.  A chain failure escapes after the merge and after the
already-applied narrowing, leaving elements untouched; the error case
carries the mutated state. -/
def filterCall (env : Env) (st : CollectorState)
    (kw : List (String × Value)) :
    Except (PyError × CollectorState) CollectorState :=
  let kw2 := coerceFilterValues env kw
  let merged := mergeAssoc st.filters kw2
  match chainList st.cdoc merged with
  | (newOps, some e) =>
      .error (e, { st with filters := merged, ops := st.ops ++ newOps })
  | (newOps, none) =>
      .ok { st with
            filters := merged
            ops := st.ops ++ newOps
            elements := materialize env st.scope (st.ops ++ newOps) }

/-- The Id attribute read view.Id performs when the view argument is not
already an ElementId. -/
def idOf : Value → Option Nat
  | .viewRef i => some i
  | .famSym i => some i
  | .levelRef i => some i
  | _ => none

/-- Scope selection in Collector.__init__ (lines 96-108): the first matching
branch of view, elements, element_ids pops only its own key; the remaining
pairs flow on as filter candidates. -/
def selectScope (env : Env) (cdoc : Value) (kw : List (String × Value)) :
    Except PyError (Scope × List (String × Value)) :=
  match popKey kw "view" with
  | (some v, rest) =>
    match v with
    | .elemId i => .ok (.view cdoc i, rest)
    | _ =>
      match idOf v with
      | some i => .ok (.view cdoc i, rest)
      | none => .error (.attributeError "Id")
  | (none, _) =>
    match popKey kw "elements" with
    | (some v, rest) => .ok (.elems cdoc (env.toElementIds v), rest)
    | (none, _) =>
      match popKey kw "element_ids" with
      | (some v, rest) => .ok (.elemIds cdoc v, rest)
      | (none, _) => .ok (.docScope cdoc, kw)

/-- Collector.__init__ after document and scope selection (lines 110-127):
reject the first remaining key outside _Filter.MAP with RPW_Exception,
store the filters, and when any are present run the filter call, whose
failure propagates out of the constructor. -/
def collectorInitScoped (env : Env) (cdoc : Value) (scope : Scope)
    (filters : List (String × Value)) : Except PyError CollectorState :=
  match filters.find? (fun p => (lookupA MAP p.1).isNone) with
  | some p => .error (.rpwException ("Collector Filter not valid: " ++ p.1))
  | none =>
    let st0 : CollectorState := ⟨cdoc, scope, filters, [], []⟩
    match filters with
    | [] => .ok st0
    | _ :: _ =>
      match filterCall env st0 filters with
      | .ok st => .ok st
      | .error (e, _) => .error e

/-- Collector.__init__ (lines 93-127): pop the document override, select the
scope, then validate and run the filters. -/
def collectorInit (env : Env) (kw : List (String × Value)) :
    Except PyError CollectorState :=
  let (docV, k1) := popKey kw "doc"
  let cdoc := docV.getD env.defaultDoc
  match selectScope env cdoc k1 with
  | .error e => .error e
  | .ok (scope, k2) => collectorInitScoped env cdoc scope k2

/-- Collector.__iter__ (lines 130-136): yields from the underlying
FilteredElementCollector, that is, enumerates the mutated adapter. -/
def collectorIter (env : Env) (st : CollectorState) : List Nat :=
  materialize env st.scope st.ops

/-- Collector.first (lines 138-144): elements[0], or None on IndexError. -/
def collectorFirst (st : CollectorState) : Option Nat := st.elements.head?

/-- Collector.__len__ (lines 158-160). -/
def collectorLen (st : CollectorState) : Nat := st.elements.length

/-- Collector.__bool__ (lines 154-156). -/
def collectorBool (st : CollectorState) : Bool := !st.elements.isEmpty

/-- A concrete environment for closed evaluations: three elements in every
scope, every operation and rule predicate accepting. -/
def env0 : Env :=
  { defaultDoc := .doc 0
    store := fun _ => [1, 2, 3]
    opSem := fun _ _ => true
    ruleSem := fun _ _ _ _ => true
    toElementIds := fun v => match v with | .elemList ids => ids | _ => []
    bicEnum := fun _ => 0
    dbClass := fun _ => 0 }

/-- Projection of an Except result to its success value. -/
def okOf {ε α : Type} : Except ε α → Option α
  | .ok a => some a
  | .error _ => none

/-- Shape tests mirroring the isinstance checks of the chain dispatch and
the sub-filter constructors. -/
def Value.isBool : Value → Bool
  | .bool _ => true
  | _ => false

def Value.isPFilter : Value → Bool
  | .pfilter _ => true
  | _ => false

def Value.isElemId : Value → Bool
  | .elemId _ => true
  | _ => false

def Value.isFamSym : Value → Bool
  | .famSym _ => true
  | _ => false

def Value.isLevel : Value → Bool
  | .levelRef _ => true
  | _ => false

@[simp] lemma keysOf_nil {α : Type} : keysOf ([] : List (String × α)) = [] := rfl

@[simp] lemma keysOf_cons {α : Type} (p : String × α) (l : List (String × α)) :
    keysOf (p :: l) = p.1 :: keysOf l := rfl

lemma lookupA_some_mem {α : Type} {l : List (String × α)} {k : String} {v : α}
    (h : lookupA l k = some v) : (k, v) ∈ l := by
  induction l with
  | nil => simp [lookupA] at h
  | cons p rest ih =>
    by_cases hp : p.1 = k
    · rw [lookupA, if_pos hp] at h
      have hv : p.2 = v := by injection h
      have : p = (k, v) := by
        obtain ⟨a, b⟩ := p
        simp only at hp hv
        rw [hp, hv]
      rw [← this]
      exact List.mem_cons_self p rest
    · rw [lookupA, if_neg hp] at h
      exact List.mem_cons_of_mem p (ih h)

lemma mem_keysOf_of_mem {α : Type} {l : List (String × α)} {p : String × α}
    (h : p ∈ l) : p.1 ∈ keysOf l := List.mem_map_of_mem Prod.fst h

lemma mem_keysOf_of_lookupA {α : Type} {l : List (String × α)} {k : String}
    {v : α} (h : lookupA l k = some v) : k ∈ keysOf l :=
  mem_keysOf_of_mem (lookupA_some_mem h)

lemma lookupA_isSome_of_mem_keys {α : Type} {l : List (String × α)} {k : String}
    (h : k ∈ keysOf l) : (lookupA l k).isSome := by
  induction l with
  | nil => simp [keysOf] at h
  | cons p rest ih =>
    by_cases hp : p.1 = k
    · rw [lookupA, if_pos hp]; rfl
    · rw [lookupA, if_neg hp]
      rcases List.mem_cons.mp h with h1 | h1
    -- k cannot be the head key here
      · exact absurd h1.symm hp
      · exact ih h1

lemma lookupA_setAssoc_self {α : Type} (l : List (String × α)) (k : String) (v : α) :
    lookupA (setAssoc l k v) k = some v := by
  induction l with
  | nil => simp [setAssoc, lookupA]
  | cons p rest ih =>
    by_cases hp : p.1 = k
    · rw [setAssoc, if_pos hp, lookupA, if_pos rfl]
    · rw [setAssoc, if_neg hp, lookupA, if_neg hp]
      exact ih

lemma lookupA_setAssoc_ne {α : Type} (l : List (String × α)) {k k' : String}
    (v : α) (h : k' ≠ k) : lookupA (setAssoc l k v) k' = lookupA l k' := by
  induction l with
  | nil =>
    have hk : ¬ (k = k') := fun he => h he.symm
    simp [setAssoc, lookupA, hk]
  | cons p rest ih =>
    by_cases hp : p.1 = k
    · rw [setAssoc, if_pos hp, lookupA, lookupA]
      rw [if_neg (fun he : k = k' => h he.symm), if_neg (fun he : p.1 = k' => h (hp ▸ he).symm)]
    · rw [setAssoc, if_neg hp, lookupA, lookupA]
      by_cases hq : p.1 = k'
      · rw [if_pos hq, if_pos hq]
      · rw [if_neg hq, if_neg hq, ih]

lemma keys_setAssoc_mem {α : Type} {l : List (String × α)} {k : String}
    (h : k ∈ keysOf l) (v : α) : keysOf (setAssoc l k v) = keysOf l := by
  induction l with
  | nil => simp [keysOf] at h
  | cons p rest ih =>
    by_cases hp : p.1 = k
    · rw [setAssoc, if_pos hp]
      simp [keysOf, hp]
    · rw [setAssoc, if_neg hp]
      rcases List.mem_cons.mp h with h1 | h1
      · exact absurd h1.symm hp
      · simp only [keysOf_cons]
        rw [ih h1]

lemma setAssoc_eq_self {α : Type} {l : List (String × α)} {k : String} {v : α}
    (h : lookupA l k = some v) : setAssoc l k v = l := by
  induction l with
  | nil => simp [lookupA] at h
  | cons p rest ih =>
    by_cases hp : p.1 = k
    · rw [lookupA, if_pos hp] at h
      have hv : p.2 = v := by injection h
      rw [setAssoc, if_pos hp]
      obtain ⟨a, b⟩ := p
      simp only at hp hv
      rw [hp, hv]
    · rw [lookupA, if_neg hp] at h
      rw [setAssoc, if_neg hp, ih h]

lemma mergeAssoc_cons {α : Type} (l : List (String × α)) (p : String × α)
    (rest : List (String × α)) :
    mergeAssoc l (p :: rest) = mergeAssoc (setAssoc l p.1 p.2) rest := rfl

lemma mergeAssoc_eq_self {α : Type} {l K : List (String × α)}
    (h : ∀ p ∈ K, lookupA l p.1 = some p.2) : mergeAssoc l K = l := by
  induction K with
  | nil => rfl
  | cons q rest ih =>
    rw [mergeAssoc_cons, setAssoc_eq_self (h q (List.mem_cons_self q rest))]
    exact ih (fun p hp => h p (List.mem_cons_of_mem q hp))

lemma lookupA_mergeAssoc_not_mem {α : Type} (l : List (String × α))
    {K : List (String × α)} {k : String} (hk : k ∉ keysOf K) :
    lookupA (mergeAssoc l K) k = lookupA l k := by
  induction K generalizing l with
  | nil => rfl
  | cons q rest ih =>
    have h1 : k ∉ keysOf rest := fun h => hk (by simp [keysOf_cons, h])
    have h2 : k ≠ q.1 := fun h => hk (by simp [keysOf_cons, h])
    rw [mergeAssoc_cons, ih (setAssoc l q.1 q.2) h1, lookupA_setAssoc_ne _ _ h2]

lemma lookupA_mergeAssoc_mem {α : Type} (l : List (String × α))
    {K : List (String × α)} {k : String} {v : α}
    (hK : (keysOf K).Nodup) (hm : (k, v) ∈ K) :
    lookupA (mergeAssoc l K) k = some v := by
  induction K generalizing l with
  | nil => cases hm
  | cons q rest ih =>
    rcases List.mem_cons.mp hm with h1 | h1
    · have hk1 : q.1 = k := by rw [← h1]
      have hv1 : q.2 = v := by rw [← h1]
      have hnr : k ∉ keysOf rest := by
        have := hK
        rw [keysOf_cons] at this
        exact hk1 ▸ (List.nodup_cons.mp this).1
      rw [mergeAssoc_cons, lookupA_mergeAssoc_not_mem _ hnr, hk1, hv1,
        lookupA_setAssoc_self]
    · have hrest : (keysOf rest).Nodup := by
        have := hK
        rw [keysOf_cons] at this
        exact (List.nodup_cons.mp this).2
      rw [mergeAssoc_cons]
      exact ih _ hrest h1

lemma lookupA_mergeAssoc_isSome {α : Type} (l : List (String × α))
    {K : List (String × α)} {k : String} (hk : k ∈ keysOf K) :
    (lookupA (mergeAssoc l K) k).isSome := by
  induction K generalizing l with
  | nil => simp [keysOf] at hk
  | cons q rest ih =>
    by_cases hr : k ∈ keysOf rest
    · rw [mergeAssoc_cons]
      exact ih (setAssoc l q.1 q.2) hr
    · have hq : k = q.1 := by
        rcases List.mem_cons.mp hk with h1 | h1
        · exact h1
        · exact absurd h1 hr
      rw [mergeAssoc_cons, lookupA_mergeAssoc_not_mem _ hr, hq,
        lookupA_setAssoc_self]
      rfl

lemma keys_coerceOne (l : List (String × Value)) (k : String)
    (f : String → Value) : keysOf (coerceOne l k f) = keysOf l := by
  unfold coerceOne
  rcases h : lookupA l k with _ | v
  · rfl
  · cases v with
    | str s =>
      change keysOf (if s = "" then l else setAssoc l k (f s)) = keysOf l
      by_cases hs : s = ""
      · rw [if_pos hs]
      · rw [if_neg hs]
        exact keys_setAssoc_mem (mem_keysOf_of_lookupA h) _
    | bool b => rfl
    | cls c => rfl
    | cat c => rfl
    | pfilter pf => rfl
    | elemId i => rfl
    | famSym i => rfl
    | levelRef i => rfl
    | viewRef i => rfl
    | doc i => rfl
    | elemList ids => rfl

lemma keys_coerce (env : Env) (kw : List (String × Value)) :
    keysOf (coerceFilterValues env kw) = keysOf kw := by
  unfold coerceFilterValues
  rw [keys_coerceOne, keys_coerceOne]

lemma chainList_err_of_badkey (cdoc : Value) (L : List (String × Value))
    (h : ∃ p ∈ L, lookupA MAP p.1 = none) :
    ((chainList cdoc L).2).isSome := by
  induction L with
  | nil =>
    obtain ⟨p, hp, _⟩ := h
    cases hp
  | cons q rest ih =>
    obtain ⟨k, v⟩ := q
    obtain ⟨p, hp, hbad⟩ := h
    rcases List.mem_cons.mp hp with h1 | h1
    · rw [chainList]
      have hb2 : lookupA MAP k = none := by rw [h1] at hbad; exact hbad
      have ha : applyOne cdoc k v = .error (.keyError k) := by
        rw [applyOne, hb2]
      rw [ha]
      rfl
    · rw [chainList]
      rcases ha : applyOne cdoc k v with e | ops1
      · rfl
      · have h2 := ih ⟨p, h1, hbad⟩
        rcases hc : chainList cdoc rest with ⟨ops2, err⟩
        rw [hc] at h2
        cases err with
        | none => simp at h2
        | some e => rfl

lemma materialize_twice (env : Env) (scope : Scope) (a b : List AOp) :
    materialize env scope ((a ++ b) ++ b) = materialize env scope (a ++ b) := by
  unfold materialize
  apply List.filter_congr
  intro e _
  simp only [List.all_append]
  rw [Bool.and_assoc, Bool.and_self]

lemma materialize_nil (env : Env) (scope : Scope) :
    materialize env scope [] = env.store scope := by
  unfold materialize
  simp [List.all_nil]

lemma filterCall_ok_shape (env : Env) (st st1 : CollectorState)
    (kw : List (String × Value)) (h : filterCall env st kw = .ok st1) :
    st1.cdoc = st.cdoc ∧ st1.scope = st.scope ∧
    st1.elements = materialize env st.scope st1.ops := by
  rcases hc : chainList st.cdoc (mergeAssoc st.filters (coerceFilterValues env kw))
    with ⟨newOps, err⟩
  simp only [filterCall] at h
  rw [hc] at h
  cases err with
  | some e => simp at h
  | none =>
    simp only [Except.ok.injEq] at h
    rw [← h]
    exact ⟨rfl, rfl, rfl⟩

/-- A materialized collector state: document scope, one of_class filter
applied, three cached elements, as produced by
collectorInit env0 [("of_class", Value.cls 3)]. -/
def stMat : CollectorState :=
  ⟨Value.doc 0, Scope.docScope (Value.doc 0), [("of_class", Value.cls 3)],
   [AOp.call "OfClass" (SubFilterArg.rawVal (Value.cls 3))], [1, 2, 3]⟩

/-- C1 (code_bug evaluation): supplying any of the documented option keys
reverse, case_sensitive or precision alongside a comparison condition makes
ParameterFilter raise RPW_Exception naming the option as an invalid rule,
because the validation loop checks every conditions key against RULES and
RULES lacks the option keys; the options are never accepted and no
CompositeRule carrying a supplied reverse flag can be built. -/
theorem parameterFilter_option_keys_rejected_eval :
    parameterFilterInit 1 [("equals", CondValue.int 2), ("reverse", CondValue.bool true)]
        = .error (.rpwException "Rule not valid: reverse") ∧
    parameterFilterInit 1 [("equals", CondValue.str "a"), ("case_sensitive", CondValue.bool true)]
        = .error (.rpwException "Rule not valid: case_sensitive") ∧
    parameterFilterInit 1 [("greater", CondValue.float 2.5), ("precision", CondValue.float 0.1)]
        = .error (.rpwException "Rule not valid: precision") :=
  ⟨rfl, rfl, rfl⟩

/-- C2 (code_bug evaluation): an unknown filter name raises RPW_Exception
from the constructor and from ParameterFilter, but a .filter call raises a
bare KeyError instead, because _chain subscripts _Filter.MAP before its
membership check runs. -/
theorem filter_unknown_key_keyerror_eval :
    collectorInit env0 [("bogus", Value.bool true)]
        = .error (.rpwException "Collector Filter not valid: bogus") ∧
    (okOf (collectorInit env0 [("of_class", Value.cls 3)])).map
        (fun st =>
          match filterCall env0 st [("bogus", Value.bool true)] with
          | .ok _ => none
          | .error (e, _) => some e)
        = some (some (PyError.keyError "bogus")) ∧
    parameterFilterInit 1 [("bogus_cond", CondValue.int 1)]
        = .error (.rpwException "Rule not valid: bogus_cond") :=
  ⟨rfl, rfl, rfl⟩

/-- C5 (code_bug evaluation): when both a view and an elements scope are
supplied, the constructor picks the view scope but then rejects the leftover
elements key as an invalid filter and raises, instead of applying the
documented silent precedence; with a single scope argument the precedence
machinery does bind the chosen scope. -/
theorem scope_precedence_multiple_raises_eval :
    collectorInit env0 [("view", Value.viewRef 7), ("elements", Value.elemList [1, 2])]
        = .error (.rpwException "Collector Filter not valid: elements") ∧
    (okOf (collectorInit env0 [("view", Value.viewRef 7), ("of_class", Value.cls 3)])).map
        (fun st => st.scope) = some (Scope.view (Value.doc 0) 7) ∧
    (okOf (collectorInit env0 [("elements", Value.elemList [8, 9]), ("of_class", Value.cls 3)])).map
        (fun st => st.scope) = some (Scope.elems (Value.doc 0) [8, 9]) :=
  ⟨rfl, rfl, rfl⟩

/-- C4: for every environment and every identical scope, is_type=False
builds exactly the WhereElementIsNotElementType chain that is_not_type=True
builds, and is_not_type=False builds exactly the WhereElementIsElementType
chain that is_type=True builds, so the materialized ResultSets coincide in
both directions. -/
theorem is_type_duality (env : Env) (cdoc : Value) (scope : Scope) :
    ∃ s1 s2 s3 s4 : CollectorState,
      collectorInitScoped env cdoc scope [("is_type", Value.bool false)] = .ok s1 ∧
      collectorInitScoped env cdoc scope [("is_not_type", Value.bool true)] = .ok s2 ∧
      s1.elements = s2.elements ∧ s1.ops = s2.ops ∧
      collectorInitScoped env cdoc scope [("is_not_type", Value.bool false)] = .ok s3 ∧
      collectorInitScoped env cdoc scope [("is_type", Value.bool true)] = .ok s4 ∧
      s3.elements = s4.elements ∧ s3.ops = s4.ops :=
  ⟨_, _, _, _, rfl, rfl, rfl, rfl, rfl, rfl, rfl, rfl⟩

/-- C10: a False value for is_view_independent takes none of the boolean
branches of the chain dispatch, so the pair is skipped silently and the
resulting ResultSet equals the one built without the pair, for every
environment and scope. -/
theorem is_view_independent_false_skipped (env : Env) (cdoc : Value)
    (scope : Scope) (c : Nat) :
    ∃ s1 s2 : CollectorState,
      collectorInitScoped env cdoc scope
        [("of_category", Value.cat c), ("is_view_independent", Value.bool false)] = .ok s1 ∧
      collectorInitScoped env cdoc scope [("of_category", Value.cat c)] = .ok s2 ∧
      s1.elements = s2.elements ∧ s1.ops = s2.ops :=
  ⟨_, _, rfl, rfl, rfl, rfl⟩

/-- A one-rule composite, used to exercise the ParameterFilter dispatch of
the chain at a concrete value. -/
def pfOne : ParameterFilter :=
  ⟨[FilterRule.atomic "CreateEqualsRule" 1 [RuleArg.val (CondValue.int 2)]],
   false, [("equals", CondValue.int 2)]⟩

/-- C8 (counterexample): a parameter_filter value that is not a
CompositeRule falls through to the final chain branch and raises the generic
RPW_Exception, not RPW_TypeError as the claim states; a boolean True for
symbol takes the boolean branch instead of any shape check; and a
CompositeRule supplied as the symbol value - a value that is neither an id
reference nor a typed-symbol reference - raises nothing at all: the
isinstance ParameterFilter dispatch on line 234 runs before the per-key
shape logic and silently passes it to WherePasses. -/
theorem wrong_shape_parameter_filter_cex :
    applyOne (Value.doc 0) "parameter_filter" (Value.str "bad")
        = .error (.rpwException "unknown parameter filter error: parameter_filter:bad") ∧
    (match applyOne (Value.doc 0) "parameter_filter" (Value.str "bad") with
     | .error (.rpwTypeError _ _) => true
     | _ => false) = false ∧
    applyOne (Value.doc 0) "symbol" (Value.bool true) = .ok [AOp.noArg "WherePasses"] ∧
    applyOne (Value.doc 0) "symbol" (Value.pfilter pfOne)
        = .ok [AOp.call "WherePasses" (SubFilterArg.epf pfOne.rules pfOne.reverse)] ∧
    applyOne (Value.doc 0) "level" (Value.pfilter pfOne)
        = .ok [AOp.call "WherePasses" (SubFilterArg.epf pfOne.rules pfOne.reverse)] :=
  ⟨rfl, rfl, rfl, rfl, rfl⟩

/-- C8 (amended): for the symbol and level filters, a value that is neither
a boolean nor a CompositeRule and is neither an ElementId nor the
corresponding typed reference raises RPW_TypeError from the sub-filter
constructor (this covers any mismatched typed reference, such as a level
supplied to symbol or a family symbol supplied to level); a CompositeRule
value supplied under any of these keys is instead dispatched silently to
WherePasses with no shape check, and a boolean takes the boolean-filter
dispatch; a parameter_filter value that is neither a boolean nor a
CompositeRule - ids included - raises the generic RPW_Exception of the
chain fall-through branch rather than RPW_TypeError. -/
theorem wrong_shape_errors (cdoc : Value) (v : Value) (pf : ParameterFilter)
    (hb : v.isBool = false) (hpf : v.isPFilter = false) :
    (v.isElemId = false → v.isFamSym = false →
      applyOne cdoc "symbol" v
        = .error (.rpwTypeError "FamilySymbol or FamilySymbol Id" (typeName v))) ∧
    (v.isElemId = false → v.isLevel = false →
      applyOne cdoc "level" v
          = .error (.rpwTypeError "Level or Level Id" (typeName v)) ∧
      applyOne cdoc "not_level" v
          = .error (.rpwTypeError "Level or Level Id" (typeName v))) ∧
    applyOne cdoc "parameter_filter" v
      = .error (.rpwException
          ("unknown parameter filter error: parameter_filter:" ++ valueRepr v)) ∧
    applyOne cdoc "symbol" (Value.pfilter pf)
      = .ok [AOp.call "WherePasses" (SubFilterArg.epf pf.rules pf.reverse)] ∧
    applyOne cdoc "level" (Value.pfilter pf)
      = .ok [AOp.call "WherePasses" (SubFilterArg.epf pf.rules pf.reverse)] ∧
    applyOne cdoc "not_level" (Value.pfilter pf)
      = .ok [AOp.call "WherePasses" (SubFilterArg.epf pf.rules pf.reverse)] := by
  cases v with
  | bool b => simp [Value.isBool] at hb
  | pfilter pfx => simp [Value.isPFilter] at hpf
  | elemId i =>
    exact ⟨fun h1 _ => by simp [Value.isElemId] at h1,
           fun h1 _ => by simp [Value.isElemId] at h1, rfl, rfl, rfl, rfl⟩
  | famSym i =>
    exact ⟨fun _ h2 => by simp [Value.isFamSym] at h2,
           fun _ _ => ⟨rfl, rfl⟩, rfl, rfl, rfl, rfl⟩
  | levelRef i =>
    exact ⟨fun _ _ => rfl,
           fun _ h2 => by simp [Value.isLevel] at h2, rfl, rfl, rfl, rfl⟩
  | str s => exact ⟨fun _ _ => rfl, fun _ _ => ⟨rfl, rfl⟩, rfl, rfl, rfl, rfl⟩
  | cls c => exact ⟨fun _ _ => rfl, fun _ _ => ⟨rfl, rfl⟩, rfl, rfl, rfl, rfl⟩
  | cat c => exact ⟨fun _ _ => rfl, fun _ _ => ⟨rfl, rfl⟩, rfl, rfl, rfl, rfl⟩
  | viewRef i => exact ⟨fun _ _ => rfl, fun _ _ => ⟨rfl, rfl⟩, rfl, rfl, rfl, rfl⟩
  | doc i => exact ⟨fun _ _ => rfl, fun _ _ => ⟨rfl, rfl⟩, rfl, rfl, rfl, rfl⟩
  | elemList ids => exact ⟨fun _ _ => rfl, fun _ _ => ⟨rfl, rfl⟩, rfl, rfl, rfl, rfl⟩

/-- C8 (witness): the amended statement evaluated at a level reference
supplied to the symbol filter, together with the parameter_filter
fall-through and the silent CompositeRule dispatch, at concrete inputs. -/
theorem wrong_shape_errors_wit :
    (Value.levelRef 5).isBool = false ∧ (Value.levelRef 5).isPFilter = false ∧
    ((Value.levelRef 5).isElemId = false → (Value.levelRef 5).isFamSym = false →
      applyOne (Value.doc 0) "symbol" (Value.levelRef 5)
        = .error (.rpwTypeError "FamilySymbol or FamilySymbol Id"
            (typeName (Value.levelRef 5)))) ∧
    applyOne (Value.doc 0) "parameter_filter" (Value.levelRef 5)
      = .error (.rpwException
          ("unknown parameter filter error: parameter_filter:"
            ++ valueRepr (Value.levelRef 5))) ∧
    applyOne (Value.doc 0) "symbol" (Value.pfilter pfOne)
      = .ok [AOp.call "WherePasses" (SubFilterArg.epf pfOne.rules pfOne.reverse)] :=
  ⟨rfl, rfl,
   (wrong_shape_errors (Value.doc 0) (Value.levelRef 5) pfOne rfl rfl).1,
   (wrong_shape_errors (Value.doc 0) (Value.levelRef 5) pfOne rfl rfl).2.2.1,
   (wrong_shape_errors (Value.doc 0) (Value.levelRef 5) pfOne rfl rfl).2.2.2.1⟩

/-- C9 (counterexample): a Collector constructed with scope arguments but an
empty filter set has an empty cached ResultSet, yet iterating it enumerates
the base adapter, so iteration and the cached ResultSet disagree. -/
theorem iteration_vs_cache_cex :
    (okOf (collectorInit env0 [])).map
        (fun st => (collectorIter env0 st, st.elements)) = some ([1, 2, 3], []) ∧
    (okOf (collectorInit env0 [])).map
        (fun st => decide (collectorIter env0 st = st.elements)) = some false :=
  ⟨rfl, rfl⟩

/-- The eight base comparison condition names paired with their negated
forms, as listed in ParameterFilter.RULES. -/
def conditionPairs : List (String × String) :=
  [("equals", "not_equals"), ("contains", "not_contains"),
   ("begins", "not_begins"), ("ends", "not_ends"),
   ("greater", "not_greater"), ("greater_equal", "not_greater_equal"),
   ("less", "not_less"), ("less_equal", "not_less_equal")]

/-- C6: every negated condition name is the not_-prefixed form of its base,
RULES maps it to the same factory method, and for every parameter id and
value the built composite wraps the same atomic rule in FilterInverseRule,
so its ElementParameterFilter predicate is the pointwise logical inverse of
the positive form for every rule semantics and element. -/
theorem not_condition_inversion (base negated : String)
    (h : (base, negated) ∈ conditionPairs) :
    negated = "not_" ++ base ∧
    lookupA RULES negated = lookupA RULES base ∧
    (lookupA RULES base).isSome = true ∧
    ∀ (pid : Nat) (v : CondValue), ∃ pf1 pf2 : ParameterFilter,
      parameterFilterInit pid [(base, v)] = .ok pf1 ∧
      parameterFilterInit pid [(negated, v)] = .ok pf2 ∧
      pf2.rules = pf1.rules.map FilterRule.inverse ∧
      pf2.reverse = pf1.reverse ∧
      ∀ (env : Env) (e : Nat), pfPasses env pf2 e = !(pfPasses env pf1 e) := by
  fin_cases h <;>
    exact ⟨by decide, by decide, by decide, fun pid v =>
      ⟨_, _, rfl, rfl, rfl, rfl, fun env e => by
        simp [pfPasses, evalRule, lookupA, RULES]⟩⟩

/-- C6 (witness): the equals condition instantiated. -/
theorem not_condition_inversion_wit :
    (("equals", "not_equals") ∈ conditionPairs) ∧
    lookupA RULES "not_equals" = lookupA RULES "equals" :=
  ⟨by decide, (not_condition_inversion "equals" "not_equals" (by decide)).2.1⟩

/-- C3 (counterexample): a .filter call with an unrecognized key leaves the
stored cumulative FilterSpec holding the new pair, refuting the claim that
no new key/value pairs are absorbed when the call fails; the cached
ResultSet is untouched. -/
theorem filter_bad_key_absorbed_cex :
    (match filterCall env0 stMat [("bogus", Value.bool true)] with
     | .error (_, st') => some (lookupA st'.filters "bogus", st'.elements)
     | .ok _ => none)
      = some (some (Value.bool true), [1, 2, 3]) := rfl

/-- C3 (amended): a .filter call whose FilterSpec holds an unrecognized key
fails before rematerialization, so the cached ResultSet is not replaced, but
the failure happens only after the merge, so the stored cumulative
FilterSpec has already absorbed every new coerced key/value pair. -/
theorem filter_bad_key_fails_after_merge (env : Env) (st : CollectorState)
    (kw : List (String × Value))
    (h : ∃ p ∈ kw, lookupA MAP p.1 = none) :
    ∃ (e : PyError) (st' : CollectorState),
      filterCall env st kw = .error (e, st') ∧
      st'.elements = st.elements ∧
      st'.filters = mergeAssoc st.filters (coerceFilterValues env kw) := by
  obtain ⟨p, hp, hbad⟩ := h
  have hk2 : p.1 ∈ keysOf (coerceFilterValues env kw) := by
    rw [keys_coerce]
    exact mem_keysOf_of_mem hp
  have hsome := lookupA_mergeAssoc_isSome st.filters hk2
  rcases hq : lookupA (mergeAssoc st.filters (coerceFilterValues env kw)) p.1
    with _ | v'
  · rw [hq] at hsome
    simp at hsome
  · have hmem : (p.1, v') ∈ mergeAssoc st.filters (coerceFilterValues env kw) :=
      lookupA_some_mem hq
    have herr := chainList_err_of_badkey st.cdoc _ ⟨(p.1, v'), hmem, hbad⟩
    rcases hc : chainList st.cdoc (mergeAssoc st.filters (coerceFilterValues env kw))
      with ⟨newOps, err⟩
    rw [hc] at herr
    cases err with
    | none => simp at herr
    | some e =>
      refine ⟨e, { st with
          filters := mergeAssoc st.filters (coerceFilterValues env kw)
          ops := st.ops ++ newOps }, ?_, rfl, rfl⟩
      simp only [filterCall]
      rw [hc]

/-- C3 (witness): the amended statement at a concrete collector. -/
theorem filter_bad_key_fails_after_merge_wit :
    (∃ p ∈ [("bogus", Value.bool true)], lookupA MAP p.1 = none) ∧
    ∃ (e : PyError) (st' : CollectorState),
      filterCall env0 stMat [("bogus", Value.bool true)] = .error (e, st') ∧
      st'.elements = stMat.elements ∧
      st'.filters = mergeAssoc stMat.filters
        (coerceFilterValues env0 [("bogus", Value.bool true)]) :=
  ⟨⟨("bogus", Value.bool true), List.mem_cons_self _ _, rfl⟩,
   filter_bad_key_fails_after_merge env0 stMat [("bogus", Value.bool true)]
     ⟨("bogus", Value.bool true), List.mem_cons_self _ _, rfl⟩⟩

/-- C7: refiltering with an identical keyword set succeeds again and merges
no new information: the merged FilterSpec is unchanged and the
rematerialized ResultSet equals the previous one, because the replayed
narrowing predicates are absorbed by conjunction. -/
theorem filter_idempotent (env : Env) (st st1 : CollectorState)
    (kw : List (String × Value)) (hknd : (keysOf kw).Nodup)
    (h1 : filterCall env st kw = .ok st1) :
    ∃ st2 : CollectorState, filterCall env st1 kw = .ok st2 ∧
      st2.elements = st1.elements ∧ st2.filters = st1.filters := by
  rcases hc : chainList st.cdoc (mergeAssoc st.filters (coerceFilterValues env kw))
    with ⟨newOps, err⟩
  simp only [filterCall] at h1
  rw [hc] at h1
  cases err with
  | some e => simp at h1
  | none =>
    simp only [Except.ok.injEq] at h1
    have hknd2 : (keysOf (coerceFilterValues env kw)).Nodup := by
      rw [keys_coerce]
      exact hknd
    have hfix : ∀ p ∈ coerceFilterValues env kw,
        lookupA (mergeAssoc st.filters (coerceFilterValues env kw)) p.1 = some p.2 :=
      fun p hp => lookupA_mergeAssoc_mem st.filters hknd2 hp
    have hMM : mergeAssoc (mergeAssoc st.filters (coerceFilterValues env kw))
        (coerceFilterValues env kw) = mergeAssoc st.filters (coerceFilterValues env kw) :=
      mergeAssoc_eq_self hfix
    subst h1
    refine ⟨⟨st.cdoc, st.scope, mergeAssoc st.filters (coerceFilterValues env kw),
        (st.ops ++ newOps) ++ newOps,
        materialize env st.scope ((st.ops ++ newOps) ++ newOps)⟩, ?_, ?_, ?_⟩
    · simp only [filterCall]
      rw [hMM, hc]
    · exact materialize_twice env st.scope st.ops newOps
    · rfl

/-- A fresh collector over the default document scope with no filters. -/
def stW : CollectorState :=
  ⟨Value.doc 0, Scope.docScope (Value.doc 0), [], [], []⟩

/-- The collector stW after one filter call with is_type=True. -/
def stW1 : CollectorState :=
  ⟨Value.doc 0, Scope.docScope (Value.doc 0), [("is_type", Value.bool true)],
   [AOp.noArg "WhereElementIsElementType"], [1, 2, 3]⟩

/-- C7 (witness): idempotence evaluated on a concrete collector. -/
theorem filter_idempotent_wit :
    (keysOf [("is_type", Value.bool true)]).Nodup ∧
    ∃ st2 : CollectorState,
      filterCall env0 stW1 [("is_type", Value.bool true)] = .ok st2 ∧
      st2.elements = stW1.elements ∧ st2.filters = stW1.filters :=
  ⟨by decide,
   filter_idempotent env0 stW stW1 [("is_type", Value.bool true)] (by decide) rfl⟩

lemma collectorInitScoped_nil (env : Env) (cdoc : Value) (scope : Scope) :
    collectorInitScoped env cdoc scope [] = .ok ⟨cdoc, scope, [], [], []⟩ := rfl

lemma collectorInitScoped_cons (env : Env) (cdoc : Value) (scope : Scope)
    (q : String × Value) (rest : List (String × Value))
    (hf : (q :: rest).find? (fun p => (lookupA MAP p.1).isNone) = none) :
    collectorInitScoped env cdoc scope (q :: rest) =
      match filterCall env ⟨cdoc, scope, q :: rest, [], []⟩ (q :: rest) with
      | .ok st => .ok st
      | .error (e, _) => .error e := by
  unfold collectorInitScoped
  rw [hf]

/-- C9 (amended): once a nonempty filter set has been run, iteration over
the underlying adapter agrees with the cached ResultSet and first, size and
emptiness are views of that same sequence; a Collector constructed with an
empty filter set instead has an empty cached ResultSet (first None, size 0)
while iterating it enumerates the base scope. -/
theorem views_agree_after_materialization (env : Env) (cdoc : Value)
    (scope : Scope) (fl : List (String × Value)) (st : CollectorState)
    (h : collectorInitScoped env cdoc scope fl = .ok st) :
    (fl ≠ [] →
      collectorIter env st = st.elements ∧
      collectorFirst st = (collectorIter env st).head? ∧
      collectorLen st = (collectorIter env st).length ∧
      collectorBool st = !(collectorIter env st).isEmpty) ∧
    (fl = [] →
      st.elements = [] ∧ collectorFirst st = none ∧ collectorLen st = 0 ∧
      collectorIter env st = env.store scope) := by
  cases fl with
  | nil =>
    rw [collectorInitScoped_nil] at h
    simp only [Except.ok.injEq] at h
    constructor
    · intro hne
      exact absurd rfl hne
    · intro _
      rw [← h]
      exact ⟨rfl, rfl, rfl, materialize_nil env scope⟩
  | cons q rest =>
    rcases hf : (q :: rest).find? (fun p => (lookupA MAP p.1).isNone) with _ | p
    · rw [collectorInitScoped_cons env cdoc scope q rest hf] at h
      rcases hfc : filterCall env ⟨cdoc, scope, q :: rest, [], []⟩ (q :: rest)
        with ⟨e, stx⟩ | stok
      · rw [hfc] at h
        simp at h
      · rw [hfc] at h
        simp only [Except.ok.injEq] at h
        obtain ⟨hcd, hsc, hel⟩ := filterCall_ok_shape env _ _ _ hfc
        subst h
        have hiter : collectorIter env stok = stok.elements := by
          unfold collectorIter
          rw [hel, hsc]
        constructor
        · intro _
          refine ⟨hiter, ?_, ?_, ?_⟩
          · rw [hiter]; rfl
          · rw [hiter]; rfl
          · rw [hiter]; rfl
        · intro hnil
          exact absurd hnil (List.cons_ne_nil q rest)
    · unfold collectorInitScoped at h
      rw [hf] at h
      simp at h

/-- C9 (witness): the amended statement at a concrete materialized
collector. -/
theorem views_agree_after_materialization_wit :
    (([("of_class", Value.cls 3)] : List (String × Value)) ≠ [] →
      collectorIter env0 stMat = stMat.elements ∧
      collectorFirst stMat = (collectorIter env0 stMat).head? ∧
      collectorLen stMat = (collectorIter env0 stMat).length ∧
      collectorBool stMat = !(collectorIter env0 stMat).isEmpty) ∧
    (([("of_class", Value.cls 3)] : List (String × Value)) = [] →
      stMat.elements = [] ∧ collectorFirst stMat = none ∧ collectorLen stMat = 0 ∧
      collectorIter env0 stMat = env0.store (Scope.docScope (Value.doc 0))) :=
  views_agree_after_materialization env0 (Value.doc 0)
    (Scope.docScope (Value.doc 0)) [("of_class", Value.cls 3)] stMat rfl
